import Mathlib

/-!
Shallow embedding of `src/cache.rs` from the twitter-export-likes repository:
the cache-load-and-merge pipeline (user lookup loading, liked-tweet page
merging, error classification, sorting) and the cache writer.

External collaborators (the filesystem, the Typed Object Store) are modelled
as explicit inputs: a directory listing is a list of entry results, a typed
load is an `Except` value attached to the entry, and the store's save is a
state transformer passed to `write_cache`.  A Rust `panic!` / `unwrap()`
abort is a distinct outcome (`Outcome.fatal`) from an `Err` return
(`Outcome.err`), mirroring the difference between process abortion and a
`Result` error.
-/

/-- A user record, as held in the user lookup and cloned into tweets.
Modelled from the spec: the `User` type of `twitter::json_types` is not part
of the given sources; the spec describes it as an opaque value with at
minimum an identifier and display metadata. -/
structure User where
  id : String
  name : String
deriving DecidableEq, Repr

/-- One liked tweet from a page file.
Modelled from the spec: the tweet datum type of `twitter::json_types` is not
part of the given sources; the spec requires at least an author identifier, a
timestamp, and a mutable resolved-author slot that starts empty.  The
timestamp is abstracted to `Nat`. -/
structure TweetDatum where
  author_id : String
  created_at : Nat
  user : Option User
deriving DecidableEq, Repr

/-- One cached page of liked tweets (`TwitLikeResponse`).
Modelled from the spec: the type lives in `twitter::json_types`, outside the
given sources; the spec describes it as an optional subject user plus an
optional ordered sequence of tweet data. -/
structure TwitLikeResponse where
  user : Option User
  data : Option (List TweetDatum)
deriving DecidableEq, Repr

/-- The user lookup (`UserIdLookup`), mapping user identifier to an optional
user record.  Modelled from the spec: the type lives in
`twitter::json_types`, outside the given sources; its `users_by_id` map is
embedded as an association list (keys unique in well-formed lookups, lookup
takes the first binding). -/
structure UserIdLookup where
  users_by_id : List (String × Option User)
deriving DecidableEq, Repr

/-- `HashMap::get` on the embedded association list: `none` means the key is
absent, `some o` returns the stored optional user record. -/
def UserIdLookup.get (lkup : UserIdLookup) (key : String) : Option (Option User) :=
  (lkup.users_by_id.find? (fun p => p.1 == key)).map Prod.snd

/-- `UserIdLookup::new()`: a freshly constructed empty lookup.
Modelled from the spec: constructor lives outside the given sources; the spec
calls it "a freshly constructed empty lookup". -/
def UserIdLookup.new : UserIdLookup := ⟨[]⟩

/-- The merge aggregate (`LikedTweets`): optional subject user plus the
ordered sequence of enriched tweets.  Modelled from the spec: the type lives
in `twitter::json_types`, outside the given sources. -/
structure LikedTweets where
  user : Option User
  tweets : List TweetDatum
deriving DecidableEq, Repr

/-- `LikedTweets::new()`: the aggregate created empty at merge start.
Modelled from the spec: constructor lives outside the given sources. -/
def LikedTweets.new : LikedTweets := ⟨none, []⟩

/-- The by-timestamp comparison used by the sort. -/
def tweetDateLe (a b : TweetDatum) : Bool :=
  decide (a.created_at ≤ b.created_at)

/-- `LikedTweets::sort_by_date()`.  Modelled from the spec: the method lives
outside the given sources; the spec fixes it as a stable sort of the tweet
sequence by timestamp ascending (ties keep input order), which `mergeSort`
provides. -/
def LikedTweets.sort_by_date (lt : LikedTweets) : LikedTweets :=
  { lt with tweets := lt.tweets.mergeSort tweetDateLe }

/-- Errors returned (as `Result::Err`) by the cache layer.  `NoTweets` is the
one named variant in `cache.rs` (`CacheLoadError::NoTweets`); the other
constructors stand for the boxed I/O, deserialization and serialization
errors propagated with `?` from collaborators. -/
inductive CacheLoadError where
  | NoTweets (msg : String)
  | IoError (msg : String)
  | LoadError (msg : String)
  | StoreError (msg : String)
deriving DecidableEq, Repr

/-- Outcome of running a piece of the pipeline: a returned value, a returned
error, or a process abort (Rust `panic!` / `unwrap()` on the wrong variant). -/
inductive Outcome (α : Type) where
  | ok (a : α)
  | err (e : CacheLoadError)
  | fatal (msg : String)
deriving DecidableEq, Repr

/-- A filename component as the OS reports it: valid UTF-8 or not
(`OsStr::to_str` yields `none` on the latter). -/
inductive OsFileName where
  | utf8 (s : String)
  | nonUtf8
deriving DecidableEq, Repr

deriving instance DecidableEq for Except

/-- One directory entry of the cache root as seen by the merge scan:
`fileName` is `Path::file_name()` of the entry's path, `isDir` records
whether the entry is a subdirectory, and `load` is what the Typed Object
Store replies when asked to load the entry as a `TwitLikeResponse`. -/
structure DirEntry where
  fileName : Option OsFileName
  isDir : Bool
  load : Except String TwitLikeResponse
deriving DecidableEq, Repr

/-- The message of the panic at `cache.rs:77`. -/
def expectedUserMsg (author_id : String) : String :=
  "Expected user data for " ++ author_id

/-- The message of an `Option::unwrap()` panic. -/
def optionUnwrapMsg : String := "called Option::unwrap() on a None value"

/-- The message of a `Result::unwrap()` panic. -/
def resultUnwrapMsg : String := "called Result::unwrap() on an Err value"

/-- The author-resolution step of the merge loop (`cache.rs:75-79`): look the
datum's author up in the user lookup; absence panics, a reserved-but-empty
entry hits `user_opt.as_ref().unwrap()` and panics, a populated entry is
cloned into the datum's `user` slot. -/
def resolveDatum (lkup : UserIdLookup) (datum : TweetDatum) : Outcome TweetDatum :=
  match lkup.get datum.author_id with
  | none => .fatal (expectedUserMsg datum.author_id)
  | some none => .fatal optionUnwrapMsg
  | some (some u) => .ok { datum with user := some u }

/-- The inner loop of the merge (`cache.rs:74-81`): resolve each datum and
push it onto the aggregate's tweet sequence. -/
def processData (lkup : UserIdLookup) : List TweetDatum → LikedTweets → Outcome LikedTweets
  | [], acc => .ok acc
  | d :: ds, acc =>
    match resolveDatum lkup d with
    | .fatal m => .fatal m
    | .err e => .err e
    | .ok d2 => processData lkup ds { acc with tweets := acc.tweets ++ [d2] }

/-- Merging one loaded page into the aggregate (`cache.rs:69-82`): adopt the
page's subject user if the aggregate has none yet, then process the page's
data if present. -/
def mergePage (lkup : UserIdLookup) (resp : TwitLikeResponse) (acc : LikedTweets) :
    Outcome LikedTweets :=
  let acc1 := if acc.user.isNone then { acc with user := resp.user } else acc
  match resp.data with
  | none => .ok acc1
  | some data => processData lkup data acc1

/-- Rust `str::starts_with` on strings: byte-prefix test, embedded as a
character-list prefix test (equivalent on valid UTF-8). -/
def strStartsWith (s pre : String) : Bool :=
  pre.data.isPrefixOf s.data

/-- The Rust prefix `format!("likes-\x7busername\x7d-")` used by the filename
test at `cache.rs:64`. -/
def likesPat (username : String) : String :=
  "likes-" ++ username ++ "-"

/-- The body of the directory-scan loop for one entry (`cache.rs:58-84`):
`path.unwrap()` aborts on an errored entry; a path without a final component
is skipped; `to_str().unwrap()` aborts on a non-UTF-8 filename; a
non-matching filename is skipped; a matching entry is loaded as a page (a
load error is returned with `?`) and merged. -/
def processEntry (username : String) (lkup : UserIdLookup)
    (entryRes : Except String DirEntry) (acc : LikedTweets) : Outcome LikedTweets :=
  match entryRes with
  | .error _ => .fatal resultUnwrapMsg
  | .ok entry =>
    match entry.fileName with
    | none => .ok acc
    | some .nonUtf8 => .fatal optionUnwrapMsg
    | some (.utf8 filen) =>
      if strStartsWith filen (likesPat username) then
        match entry.load with
        | .error e => .err (.LoadError e)
        | .ok resp => mergePage lkup resp acc
      else .ok acc

/-- The directory-scan loop of the merge (`cache.rs:58-85`), folded over the
listing in filesystem order. -/
def processEntries (username : String) (lkup : UserIdLookup) :
    List (Except String DirEntry) → LikedTweets → Outcome LikedTweets
  | [], acc => .ok acc
  | e :: es, acc =>
    match processEntry username lkup e acc with
    | .fatal m => .fatal m
    | .err er => .err er
    | .ok acc2 => processEntries username lkup es acc2

/-- The `NoTweets` remediation message built at `cache.rs:88-91`. -/
def noTweetsMsg (username : String) : String :=
  "No tweets were found for user '" ++ username ++ "'. Did you mean to run `export` first?"

/-- `load_all_liked_tweets_from_cache` (`cache.rs:50-96`).  `readDirRes` is
the outcome of resolving the cache directory and listing it (`cache.rs:53-54`,
an error there is returned with `?`); `lkupRes` is the outcome of
`UserIdLookup::load_default()` (`cache.rs:56`).  The scan accumulates into an
empty aggregate; an empty result yields `CacheLoadError::NoTweets`, otherwise
the aggregate is sorted by date and returned. -/
def load_all_liked_tweets_from_cache (username : String)
    (readDirRes : Except String (List (Except String DirEntry)))
    (lkupRes : Except String UserIdLookup) : Outcome LikedTweets :=
  match readDirRes with
  | .error e => .err (.IoError e)
  | .ok entries =>
    match lkupRes with
    | .error e => .err (.LoadError e)
    | .ok lkup =>
      match processEntries username lkup entries LikedTweets.new with
      | .fatal m => .fatal m
      | .err er => .err er
      | .ok lt =>
        if lt.tweets.isEmpty then
          .err (.NoTweets (noTweetsMsg username))
        else
          .ok lt.sort_by_date

/-- `load_user_lookup` (`cache.rs:22-30`): the four fallible steps —
resolving the cache directory, `create_dir_all`, computing the lookup's
canonical path, and the Typed Object Store load — are threaded as explicit
outcomes; each error is propagated with `?`. -/
def load_user_lookup (cacheDirRes : Except String (List String))
    (createDirRes : Except String Unit)
    (fullPathRes : Except String (List String))
    (loadAt : List String → Except String UserIdLookup) :
    Except String UserIdLookup := do
  let _ ← cacheDirRes
  let _ ← createDirRes
  let p ← fullPathRes
  loadAt p

/-- `try_load_user_lookup` (`cache.rs:34-42`): total; on success returns the
loaded lookup with no diagnostics, on any error prints one diagnostic line
and returns `UserIdLookup::new()`.  The second component is the list of
printed diagnostic lines. -/
def try_load_user_lookup (cacheDirRes : Except String (List String))
    (createDirRes : Except String Unit)
    (fullPathRes : Except String (List String))
    (loadAt : List String → Except String UserIdLookup) :
    UserIdLookup × List String :=
  match load_user_lookup cacheDirRes createDirRes fullPathRes loadAt with
  | .ok uil => (uil, [])
  | .error err => (UserIdLookup.new, ["try_load_user_lookup: error " ++ err])

/-- A filesystem path as a list of components (for the writer model). -/
def FsPath := List String
deriving instance DecidableEq, Repr for FsPath

/-- A tiny filesystem state for the writer: the set of existing directories,
and whether directory creation currently succeeds (permissions / disk). -/
structure FsState where
  dirs : List (List String)
  writable : Bool
deriving DecidableEq, Repr

/-- `Path::parent()`: the path without its final component; `none` for an
empty path. -/
def pathParent : List String → Option (List String)
  | [] => none
  | p => some p.dropLast

/-- All ancestor directories of a path, the path itself included. -/
def pathWithAncestors (p : List String) : List (List String) :=
  (List.range (p.length + 1)).map (fun n => p.take n)

/-- `fs::create_dir_all`: recursively creates the directory and every missing
ancestor; idempotent; fails when the filesystem refuses writes. -/
def create_dir_all (p : List String) (st : FsState) : Except String FsState :=
  if st.writable then
    .ok { st with dirs := st.dirs ++ (pathWithAncestors p).filter (fun d => ¬ d ∈ st.dirs) }
  else
    .error "io error"

/-- `write_cache` (`cache.rs:117-124`): `file_path.parent().unwrap()` aborts
on a parentless path; otherwise `create_dir_all` on the parent (an error is
returned with `?`), then the Typed Object Store's `cache` (save) runs on the
resulting state (its error is returned with `?`).  The store's save is the
explicit state transformer `cacheIt`. -/
def write_cache (cacheIt : FsState → Except String FsState)
    (file_path : List String) (st : FsState) : Outcome FsState :=
  match pathParent file_path with
  | none => .fatal optionUnwrapMsg
  | some par =>
    match create_dir_all par st with
    | .error e => .err (.IoError e)
    | .ok st1 =>
      match cacheIt st1 with
      | .error e => .err (.StoreError e)
      | .ok st2 => .ok st2

/-- Tweet count of one page: the length of its data sequence (0 when the
page carries no data). -/
def pageTweetCount (resp : TwitLikeResponse) : Nat :=
  (resp.data.getD []).length

/-- The page the scan loads from an entry for `username`: `some` exactly for
non-errored entries with a matching UTF-8 filename whose load succeeds. -/
def entryPage (username : String) (er : Except String DirEntry) :
    Option TwitLikeResponse :=
  match er with
  | .error _ => none
  | .ok entry =>
    match entry.fileName with
    | none => none
    | some .nonUtf8 => none
    | some (.utf8 filen) =>
      if strStartsWith filen (likesPat username) then entry.load.toOption else none

/-- All pages the scan loads for `username`, in listing order. -/
def matchingPages (username : String) (entries : List (Except String DirEntry)) :
    List TwitLikeResponse :=
  entries.filterMap (entryPage username)

example : strStartsWith "likes-alice-1" (likesPat "alice") = true := by decide

example : strStartsWith "likes-alicexyz-1" (likesPat "alice") = false := by decide

example :
    load_all_liked_tweets_from_cache "alice" (.ok []) (.ok UserIdLookup.new)
      = .err (.NoTweets (noTweetsMsg "alice")) := by decide

theorem tweetDateLe_trans : ∀ a b c : TweetDatum,
    tweetDateLe a b → tweetDateLe b c → tweetDateLe a c := by
  intro a b c hab hbc
  simp only [tweetDateLe, decide_eq_true_eq] at *
  omega

theorem tweetDateLe_total : ∀ a b : TweetDatum, tweetDateLe a b || tweetDateLe b a := by
  intro a b
  simp only [tweetDateLe, Bool.or_eq_true, decide_eq_true_eq]
  omega

theorem filter_mergeSort_of_const {α : Type} {le : α → α → Bool}
    (trans : ∀ a b c : α, le a b → le b c → le a c)
    (total : ∀ a b : α, le a b || le b a)
    (p : α → Bool) (hp : ∀ a b : α, p a → p b → le a b)
    (l : List α) : (List.mergeSort l le).filter p = l.filter p := by
  have hsub : List.Sublist (l.filter p) l := List.filter_sublist l
  have hpw : (l.filter p).Pairwise (fun a b => le a b = true) := by
    apply List.pairwise_of_forall_mem_list
    intro a ha b hb
    exact hp a b (List.of_mem_filter ha) (List.of_mem_filter hb)
  have h2 : List.Sublist (l.filter p) (List.mergeSort l le) :=
    List.sublist_mergeSort trans total hpw hsub
  have h3 : (l.filter p).filter p = l.filter p :=
    List.filter_eq_self.mpr (fun a ha => List.of_mem_filter ha)
  have h4 : List.Sublist (l.filter p) ((List.mergeSort l le).filter p) := by
    have h6 := h2.filter p
    rwa [h3] at h6
  have h5 : List.Perm ((List.mergeSort l le).filter p) (l.filter p) :=
    (List.mergeSort_perm l le).filter p
  exact (h4.eq_of_length h5.length_eq.symm).symm

theorem sort_by_date_user (lt : LikedTweets) : lt.sort_by_date.user = lt.user := rfl

theorem sort_by_date_perm (lt : LikedTweets) :
    List.Perm lt.sort_by_date.tweets lt.tweets :=
  List.mergeSort_perm lt.tweets tweetDateLe

theorem sort_by_date_pairwise (lt : LikedTweets) :
    lt.sort_by_date.tweets.Pairwise (fun a b => a.created_at ≤ b.created_at) := by
  have h := List.sorted_mergeSort tweetDateLe_trans tweetDateLe_total lt.tweets
  exact h.imp (fun hab => by simpa [tweetDateLe] using hab)

theorem sort_by_date_filter_date (lt : LikedTweets) (t : Nat) :
    lt.sort_by_date.tweets.filter (fun d => d.created_at == t)
      = lt.tweets.filter (fun d => d.created_at == t) := by
  apply filter_mergeSort_of_const tweetDateLe_trans tweetDateLe_total
  intro a b ha hb
  simp only [beq_iff_eq] at ha hb
  simp [tweetDateLe, ha, hb]

theorem processEntries_append (username : String) (lkup : UserIdLookup)
    (l1 l2 : List (Except String DirEntry)) (acc : LikedTweets) :
    processEntries username lkup (l1 ++ l2) acc =
      match processEntries username lkup l1 acc with
      | .ok acc2 => processEntries username lkup l2 acc2
      | .err e => .err e
      | .fatal m => .fatal m := by
  induction l1 generalizing acc with
  | nil => rfl
  | cons e es ih =>
    simp only [List.cons_append, processEntries]
    cases processEntry username lkup e acc <;> simp [ih]

theorem processData_fatal_absent (lkup : UserIdLookup) (pre : List TweetDatum)
    (d : TweetDatum) (post : List TweetDatum) (acc : LikedTweets)
    (hpre : ∀ d2 ∈ pre, ∃ u, lkup.get d2.author_id = some (some u))
    (habs : lkup.get d.author_id = none) :
    processData lkup (pre ++ d :: post) acc = .fatal (expectedUserMsg d.author_id) := by
  induction pre generalizing acc with
  | nil => simp [processData, resolveDatum, habs]
  | cons p ps ih =>
    obtain ⟨u, hu⟩ := hpre p (by simp)
    simp only [List.cons_append, processData, resolveDatum, hu]
    exact ih _ (fun d2 h2 => hpre d2 (by simp [h2]))

theorem processData_fatal_unpopulated (lkup : UserIdLookup) (pre : List TweetDatum)
    (d : TweetDatum) (post : List TweetDatum) (acc : LikedTweets)
    (hpre : ∀ d2 ∈ pre, ∃ u, lkup.get d2.author_id = some (some u))
    (habs : lkup.get d.author_id = some none) :
    processData lkup (pre ++ d :: post) acc = .fatal optionUnwrapMsg := by
  induction pre generalizing acc with
  | nil => simp [processData, resolveDatum, habs]
  | cons p ps ih =>
    obtain ⟨u, hu⟩ := hpre p (by simp)
    simp only [List.cons_append, processData, resolveDatum, hu]
    exact ih _ (fun d2 h2 => hpre d2 (by simp [h2]))

theorem load_all_ok_inv (username : String) (entries : List (Except String DirEntry))
    (lkup : UserIdLookup) (agg : LikedTweets)
    (h : load_all_liked_tweets_from_cache username (.ok entries) (.ok lkup) = .ok agg) :
    ∃ acc, processEntries username lkup entries LikedTweets.new = .ok acc ∧
      acc.tweets ≠ [] ∧ agg = acc.sort_by_date := by
  replace h : (match processEntries username lkup entries LikedTweets.new with
    | Outcome.fatal m => Outcome.fatal m
    | Outcome.err er => Outcome.err er
    | Outcome.ok lt =>
      if lt.tweets.isEmpty then Outcome.err (CacheLoadError.NoTweets (noTweetsMsg username))
      else Outcome.ok lt.sort_by_date) = Outcome.ok agg := h
  cases hp : processEntries username lkup entries LikedTweets.new with
  | fatal m => rw [hp] at h; simp at h
  | err e => rw [hp] at h; simp at h
  | ok acc =>
    rw [hp] at h
    cases he : acc.tweets.isEmpty with
    | true => simp [he] at h
    | false =>
      simp only [he, Bool.false_eq_true, if_false] at h
      refine ⟨acc, rfl, ?_, ?_⟩
      · intro hnil
        rw [hnil] at he
        simp at he
      · cases h
        rfl

theorem resolveDatum_ok_inv (lkup : UserIdLookup) (d d2 : TweetDatum)
    (h : resolveDatum lkup d = .ok d2) :
    ∃ u, lkup.get d2.author_id = some (some u) ∧ d2.user = some u := by
  unfold resolveDatum at h
  cases hg : lkup.get d.author_id with
  | none => rw [hg] at h; simp at h
  | some o =>
    cases o with
    | none => rw [hg] at h; simp at h
    | some u =>
      rw [hg] at h
      simp only [Outcome.ok.injEq] at h
      subst h
      exact ⟨u, hg, rfl⟩

theorem processData_ok_inv (lkup : UserIdLookup) (ds : List TweetDatum)
    (acc acc2 : LikedTweets) (h : processData lkup ds acc = .ok acc2) :
    acc2.user = acc.user ∧
    acc2.tweets.length = acc.tweets.length + ds.length ∧
    ∀ t ∈ acc2.tweets, t ∈ acc.tweets ∨
      ∃ u, lkup.get t.author_id = some (some u) ∧ t.user = some u := by
  induction ds generalizing acc with
  | nil =>
    simp only [processData, Outcome.ok.injEq] at h
    subst h
    exact ⟨rfl, by simp, fun t ht => Or.inl ht⟩
  | cons d rest ih =>
    simp only [processData] at h
    cases hr : resolveDatum lkup d with
    | fatal m => rw [hr] at h; simp at h
    | err e => rw [hr] at h; simp at h
    | ok d2 =>
      rw [hr] at h
      obtain ⟨hu, hl, hm⟩ := ih _ h
      refine ⟨hu, ?_, ?_⟩
      · simp only [List.length_append, List.length_cons, List.length_nil] at hl ⊢
        omega
      · intro t ht
        rcases hm t ht with h1 | h2
        · rcases List.mem_append.mp h1 with h3 | h4
          · exact Or.inl h3
          · right
            have h5 : t = d2 := by simpa using h4
            subst h5
            exact resolveDatum_ok_inv lkup d t hr
        · exact Or.inr h2

theorem mergePage_ok_inv (lkup : UserIdLookup) (resp : TwitLikeResponse)
    (acc acc2 : LikedTweets) (h : mergePage lkup resp acc = .ok acc2) :
    acc2.tweets.length = acc.tweets.length + pageTweetCount resp ∧
    ∀ t ∈ acc2.tweets, t ∈ acc.tweets ∨
      ∃ u, lkup.get t.author_id = some (some u) ∧ t.user = some u := by
  simp only [mergePage] at h
  cases hd : resp.data with
  | none =>
    rw [hd] at h
    simp only [Outcome.ok.injEq] at h
    subst h
    cases hu : acc.user.isNone <;>
      exact ⟨by simp [pageTweetCount, hd, hu], fun t ht => Or.inl ht⟩
  | some data =>
    rw [hd] at h
    obtain ⟨-, hl, hm⟩ := processData_ok_inv lkup data _ acc2 h
    cases hu : acc.user.isNone <;>
      simp only [hu, if_true, if_false, Bool.false_eq_true] at hl hm <;>
      exact ⟨by simp [pageTweetCount, hd]; omega, hm⟩

theorem processEntry_ok_inv (username : String) (lkup : UserIdLookup)
    (er : Except String DirEntry) (acc acc2 : LikedTweets)
    (h : processEntry username lkup er acc = .ok acc2) :
    acc2.tweets.length = acc.tweets.length +
      ((entryPage username er).map pageTweetCount).getD 0 ∧
    ∀ t ∈ acc2.tweets, t ∈ acc.tweets ∨
      ∃ u, lkup.get t.author_id = some (some u) ∧ t.user = some u := by
  cases er with
  | error s => simp [processEntry] at h
  | ok entry =>
    cases hf : entry.fileName with
    | none =>
      simp only [processEntry, hf, Outcome.ok.injEq] at h
      subst h
      exact ⟨by simp [entryPage, hf], fun t ht => Or.inl ht⟩
    | some fn =>
      cases fn with
      | nonUtf8 => simp [processEntry, hf] at h
      | utf8 filen =>
        simp only [processEntry, hf] at h
        cases hm : strStartsWith filen (likesPat username) with
        | false =>
          rw [hm] at h
          simp only [Bool.false_eq_true, if_false, Outcome.ok.injEq] at h
          subst h
          exact ⟨by simp [entryPage, hf, hm], fun t ht => Or.inl ht⟩
        | true =>
          rw [hm] at h
          simp only [if_true] at h
          cases hl : entry.load with
          | error e => rw [hl] at h; simp at h
          | ok resp =>
            rw [hl] at h
            have h2 := mergePage_ok_inv lkup resp acc acc2 h
            simpa [entryPage, hf, hm, hl] using h2

theorem processEntries_ok_inv (username : String) (lkup : UserIdLookup)
    (entries : List (Except String DirEntry)) (acc acc2 : LikedTweets)
    (h : processEntries username lkup entries acc = .ok acc2) :
    acc2.tweets.length = acc.tweets.length +
      ((matchingPages username entries).map pageTweetCount).sum ∧
    ∀ t ∈ acc2.tweets, t ∈ acc.tweets ∨
      ∃ u, lkup.get t.author_id = some (some u) ∧ t.user = some u := by
  induction entries generalizing acc with
  | nil =>
    simp only [processEntries, Outcome.ok.injEq] at h
    subst h
    exact ⟨by simp [matchingPages], fun t ht => Or.inl ht⟩
  | cons e es ih =>
    simp only [processEntries] at h
    cases he : processEntry username lkup e acc with
    | fatal m => rw [he] at h; simp at h
    | err x => rw [he] at h; simp at h
    | ok acc1 =>
      rw [he] at h
      obtain ⟨hl1, hm1⟩ := processEntry_ok_inv username lkup e acc acc1 he
      obtain ⟨hl2, hm2⟩ := ih _ h
      constructor
      · rw [hl2, hl1]
        simp only [matchingPages, List.filterMap_cons]
        cases entryPage username e
        · simp
        · simp
          omega
      · intro t ht
        rcases hm2 t ht with h1 | h2
        · rcases hm1 t h1 with h3 | h4
          · exact Or.inl h3
          · exact Or.inr h4
        · exact Or.inr h2

theorem load_all_eq_match (username : String) (entries : List (Except String DirEntry))
    (lkup : UserIdLookup) :
    load_all_liked_tweets_from_cache username (.ok entries) (.ok lkup) =
      match processEntries username lkup entries LikedTweets.new with
      | .fatal m => .fatal m
      | .err er => .err er
      | .ok lt =>
        if lt.tweets.isEmpty then .err (.NoTweets (noTweetsMsg username))
        else .ok lt.sort_by_date := rfl

/-- C1: during `load_all_liked_tweets_from_cache`, a tweet datum of a matching,
successfully loaded page whose author identifier is absent from the user
lookup aborts the whole process with a fatal panic the moment it is reached:
the call ends in `Outcome.fatal`, so no aggregate is returned and the tweet is
not silently dropped. -/
theorem absent_author_aborts_merge (username : String) (lkup : UserIdLookup)
    (es1 es2 : List (Except String DirEntry)) (entry : DirEntry) (filen : String)
    (resp : TwitLikeResponse) (pre post : List TweetDatum) (d : TweetDatum)
    (acc : LikedTweets)
    (hname : entry.fileName = some (.utf8 filen))
    (hmatch : strStartsWith filen (likesPat username) = true)
    (hload : entry.load = .ok resp)
    (hdata : resp.data = some (pre ++ d :: post))
    (hreach : processEntries username lkup es1 LikedTweets.new = .ok acc)
    (hpre : ∀ d2 ∈ pre, ∃ u, lkup.get d2.author_id = some (some u))
    (habs : lkup.get d.author_id = none) :
    load_all_liked_tweets_from_cache username (.ok (es1 ++ .ok entry :: es2)) (.ok lkup)
      = .fatal (expectedUserMsg d.author_id) := by
  have hstep : processEntry username lkup (.ok entry) acc
      = .fatal (expectedUserMsg d.author_id) := by
    simp only [processEntry, hname, hmatch, if_true, hload, mergePage, hdata]
    exact processData_fatal_absent lkup pre d post _ hpre habs
  rw [load_all_eq_match, processEntries_append, hreach]
  simp only [processEntries, hstep]

theorem absent_author_aborts_merge_witness :
    load_all_liked_tweets_from_cache "bob"
      (.ok [.ok (DirEntry.mk (some (.utf8 "likes-bob-1")) false
        (.ok (TwitLikeResponse.mk none (some [TweetDatum.mk "u1" 5 none]))))])
      (.ok UserIdLookup.new)
      = .fatal (expectedUserMsg "u1") :=
  absent_author_aborts_merge "bob" UserIdLookup.new [] []
    (DirEntry.mk (some (.utf8 "likes-bob-1")) false
      (.ok (TwitLikeResponse.mk none (some [TweetDatum.mk "u1" 5 none]))))
    "likes-bob-1" (TwitLikeResponse.mk none (some [TweetDatum.mk "u1" 5 none]))
    [] [] (TweetDatum.mk "u1" 5 none) LikedTweets.new
    rfl (by decide) rfl rfl rfl (by simp) rfl

/-- C2: when the scan completes with an empty aggregate (in particular with no
matching files), the call fails with the `NoTweets` error carrying the
remediation hint and never returns an aggregate; conversely a returned
aggregate always has a non-empty tweet sequence. -/
theorem noTweets_error_iff_empty (username : String)
    (entries : List (Except String DirEntry)) (lkup : UserIdLookup)
    (acc : LikedTweets)
    (hacc : processEntries username lkup entries LikedTweets.new = .ok acc) :
    (acc.tweets = [] →
      load_all_liked_tweets_from_cache username (.ok entries) (.ok lkup)
        = .err (.NoTweets (noTweetsMsg username))) ∧
    ∀ agg, load_all_liked_tweets_from_cache username (.ok entries) (.ok lkup) = .ok agg →
      agg.tweets ≠ [] := by
  constructor
  · intro hnil
    rw [load_all_eq_match, hacc]
    simp [hnil]
  · intro agg hagg
    obtain ⟨acc2, hp2, hne, hagg2⟩ := load_all_ok_inv username entries lkup agg hagg
    subst hagg2
    intro hcon
    apply hne
    have h6 := sort_by_date_perm acc2
    rw [hcon] at h6
    have h7 := h6.length_eq
    simp only [List.length_nil] at h7
    exact List.eq_nil_of_length_eq_zero h7.symm

theorem noTweets_error_iff_empty_witness :
    load_all_liked_tweets_from_cache "alice"
      (.ok [.ok (DirEntry.mk (some (.utf8 "notes.txt")) false (.error "x"))])
      (.ok UserIdLookup.new)
      = .err (.NoTweets (noTweetsMsg "alice")) :=
  (noTweets_error_iff_empty "alice"
    [.ok (DirEntry.mk (some (.utf8 "notes.txt")) false (.error "x"))]
    UserIdLookup.new LikedTweets.new rfl).1 rfl

/-- C3: an entry with a (UTF-8) filename is loaded as a liked-tweet page
exactly when the filename starts with the prefix likes-username- (trailing
separator included): a mismatch leaves the aggregate untouched, a match hands
the entry to the Typed Object Store and merges the page; in particular
likes-alice-1 matches for username alice while likes-alicexyz-1 does not. -/
theorem likes_pattern_match (username filen : String) (lkup : UserIdLookup)
    (entry : DirEntry) (acc : LikedTweets)
    (hname : entry.fileName = some (.utf8 filen)) :
    (strStartsWith filen (likesPat username) = false →
      processEntry username lkup (.ok entry) acc = .ok acc) ∧
    (strStartsWith filen (likesPat username) = true →
      processEntry username lkup (.ok entry) acc =
        (match entry.load with
         | .error e => .err (.LoadError e)
         | .ok resp => mergePage lkup resp acc)) ∧
    strStartsWith "likes-alice-1" (likesPat "alice") = true ∧
    strStartsWith "likes-alicexyz-1" (likesPat "alice") = false := by
  refine ⟨?_, ?_, by decide, by decide⟩
  · intro hm
    simp [processEntry, hname, hm]
  · intro hm
    simp [processEntry, hname, hm]

theorem likes_pattern_match_witness :
    processEntry "alice" UserIdLookup.new
      (.ok (DirEntry.mk (some (.utf8 "likes-alicexyz-1")) false (.error "e")))
      LikedTweets.new = .ok LikedTweets.new :=
  (likes_pattern_match "alice" "likes-alicexyz-1" UserIdLookup.new
    (DirEntry.mk (some (.utf8 "likes-alicexyz-1")) false (.error "e"))
    LikedTweets.new rfl).1 (by decide)

theorem sort_by_date_of_sorted (lt : LikedTweets)
    (h : lt.tweets.Pairwise (fun a b => tweetDateLe a b = true)) :
    lt.sort_by_date = lt := by
  unfold LikedTweets.sort_by_date
  rw [List.mergeSort_of_sorted h]

theorem loadAllBobScenario :
    load_all_liked_tweets_from_cache "bob"
      (.ok [.ok (DirEntry.mk (some (.utf8 "likes-bob-001")) false
        (.ok (TwitLikeResponse.mk none
          (some [TweetDatum.mk "u1" 1 none, TweetDatum.mk "u1" 2 none]))))])
      (.ok (UserIdLookup.mk [("u1", some (User.mk "u1" "Bob"))]))
      = .ok (LikedTweets.mk none
        [TweetDatum.mk "u1" 1 (some (User.mk "u1" "Bob")),
         TweetDatum.mk "u1" 2 (some (User.mk "u1" "Bob"))]) := by
  rw [load_all_eq_match]
  have hp : processEntries "bob" (UserIdLookup.mk [("u1", some (User.mk "u1" "Bob"))])
      [.ok (DirEntry.mk (some (.utf8 "likes-bob-001")) false
        (.ok (TwitLikeResponse.mk none
          (some [TweetDatum.mk "u1" 1 none, TweetDatum.mk "u1" 2 none]))))]
      LikedTweets.new
      = .ok (LikedTweets.mk none
        [TweetDatum.mk "u1" 1 (some (User.mk "u1" "Bob")),
         TweetDatum.mk "u1" 2 (some (User.mk "u1" "Bob"))]) := by decide
  rw [hp]
  have hs := sort_by_date_of_sorted
    (LikedTweets.mk none
      [TweetDatum.mk "u1" 1 (some (User.mk "u1" "Bob")),
       TweetDatum.mk "u1" 2 (some (User.mk "u1" "Bob"))])
    (by simp [List.pairwise_cons, tweetDateLe])
  simp [hs]

/-- C4: a successfully returned aggregate is sorted by timestamp ascending,
and the sort is stable: for each timestamp, the tweets carrying it appear in
the same order as in the pre-sort accumulation. -/
theorem aggregate_sorted_stable (username : String)
    (entries : List (Except String DirEntry)) (lkup : UserIdLookup)
    (agg : LikedTweets)
    (h : load_all_liked_tweets_from_cache username (.ok entries) (.ok lkup) = .ok agg) :
    agg.tweets.Pairwise (fun a b => a.created_at ≤ b.created_at) ∧
    ∀ acc, processEntries username lkup entries LikedTweets.new = .ok acc →
      ∀ t : Nat, agg.tweets.filter (fun d => d.created_at == t)
        = acc.tweets.filter (fun d => d.created_at == t) := by
  obtain ⟨acc2, hp, -, heq⟩ := load_all_ok_inv username entries lkup agg h
  subst heq
  refine ⟨sort_by_date_pairwise acc2, ?_⟩
  intro acc hacc t
  rw [hp] at hacc
  cases hacc
  exact sort_by_date_filter_date acc2 t

theorem aggregate_sorted_stable_witness :
    (LikedTweets.mk none
      [TweetDatum.mk "u1" 1 (some (User.mk "u1" "Bob")),
       TweetDatum.mk "u1" 2 (some (User.mk "u1" "Bob"))]).tweets.Pairwise
      (fun a b => a.created_at ≤ b.created_at) :=
  (aggregate_sorted_stable "bob"
    [.ok (DirEntry.mk (some (.utf8 "likes-bob-001")) false
      (.ok (TwitLikeResponse.mk none
        (some [TweetDatum.mk "u1" 1 none, TweetDatum.mk "u1" 2 none]))))]
    (UserIdLookup.mk [("u1", some (User.mk "u1" "Bob"))])
    (LikedTweets.mk none
      [TweetDatum.mk "u1" 1 (some (User.mk "u1" "Bob")),
       TweetDatum.mk "u1" 2 (some (User.mk "u1" "Bob"))])
    loadAllBobScenario).1

/-- C5: a successfully returned aggregate holds exactly as many tweets as the
matching pages held together, and every tweet's resolved-author slot carries
the user record that the lookup maps its author identifier to. -/
theorem aggregate_count_and_resolution (username : String)
    (entries : List (Except String DirEntry)) (lkup : UserIdLookup)
    (agg : LikedTweets)
    (h : load_all_liked_tweets_from_cache username (.ok entries) (.ok lkup) = .ok agg) :
    agg.tweets.length = ((matchingPages username entries).map pageTweetCount).sum ∧
    ∀ t ∈ agg.tweets, ∃ u, lkup.get t.author_id = some (some u) ∧ t.user = some u := by
  obtain ⟨acc, hp, -, heq⟩ := load_all_ok_inv username entries lkup agg h
  subst heq
  obtain ⟨hlen, hmem⟩ := processEntries_ok_inv username lkup entries _ _ hp
  constructor
  · rw [(sort_by_date_perm acc).length_eq, hlen]
    simp [LikedTweets.new]
  · intro t ht
    have ht2 : t ∈ acc.tweets := (sort_by_date_perm acc).mem_iff.mp ht
    rcases hmem t ht2 with h1 | h2
    · simp [LikedTweets.new] at h1
    · exact h2

theorem aggregate_count_and_resolution_witness :
    (LikedTweets.mk none
      [TweetDatum.mk "u1" 1 (some (User.mk "u1" "Bob")),
       TweetDatum.mk "u1" 2 (some (User.mk "u1" "Bob"))]).tweets.length
      = ((matchingPages "bob"
          [.ok (DirEntry.mk (some (.utf8 "likes-bob-001")) false
            (.ok (TwitLikeResponse.mk none
              (some [TweetDatum.mk "u1" 1 none, TweetDatum.mk "u1" 2 none]))))]).map
          pageTweetCount).sum :=
  (aggregate_count_and_resolution "bob"
    [.ok (DirEntry.mk (some (.utf8 "likes-bob-001")) false
      (.ok (TwitLikeResponse.mk none
        (some [TweetDatum.mk "u1" 1 none, TweetDatum.mk "u1" 2 none]))))]
    (UserIdLookup.mk [("u1", some (User.mk "u1" "Bob"))])
    (LikedTweets.mk none
      [TweetDatum.mk "u1" 1 (some (User.mk "u1" "Bob")),
       TweetDatum.mk "u1" 2 (some (User.mk "u1" "Bob"))])
    loadAllBobScenario).1

/-- C6: the merge is idempotent: two runs against an unchanged cache (the
same directory listing and the same loaded user lookup) that both succeed
return structurally equal aggregates. -/
theorem merge_idempotent (username : String)
    (rd1 rd2 : Except String (List (Except String DirEntry)))
    (lk1 lk2 : Except String UserIdLookup) (agg1 agg2 : LikedTweets)
    (hrd : rd1 = rd2) (hlk : lk1 = lk2)
    (h1 : load_all_liked_tweets_from_cache username rd1 lk1 = .ok agg1)
    (h2 : load_all_liked_tweets_from_cache username rd2 lk2 = .ok agg2) :
    agg1 = agg2 := by
  subst hrd
  subst hlk
  rw [h1] at h2
  injection h2

theorem merge_idempotent_witness :
    LikedTweets.mk none
      [TweetDatum.mk "u1" 1 (some (User.mk "u1" "Bob")),
       TweetDatum.mk "u1" 2 (some (User.mk "u1" "Bob"))]
    = LikedTweets.mk none
      [TweetDatum.mk "u1" 1 (some (User.mk "u1" "Bob")),
       TweetDatum.mk "u1" 2 (some (User.mk "u1" "Bob"))] :=
  merge_idempotent "bob"
    (.ok [.ok (DirEntry.mk (some (.utf8 "likes-bob-001")) false
      (.ok (TwitLikeResponse.mk none
        (some [TweetDatum.mk "u1" 1 none, TweetDatum.mk "u1" 2 none]))))])
    (.ok [.ok (DirEntry.mk (some (.utf8 "likes-bob-001")) false
      (.ok (TwitLikeResponse.mk none
        (some [TweetDatum.mk "u1" 1 none, TweetDatum.mk "u1" 2 none]))))])
    (.ok (UserIdLookup.mk [("u1", some (User.mk "u1" "Bob"))]))
    (.ok (UserIdLookup.mk [("u1", some (User.mk "u1" "Bob"))]))
    (LikedTweets.mk none
      [TweetDatum.mk "u1" 1 (some (User.mk "u1" "Bob")),
       TweetDatum.mk "u1" 2 (some (User.mk "u1" "Bob"))])
    (LikedTweets.mk none
      [TweetDatum.mk "u1" 1 (some (User.mk "u1" "Bob")),
       TweetDatum.mk "u1" 2 (some (User.mk "u1" "Bob"))])
    rfl rfl loadAllBobScenario loadAllBobScenario

/-- C7: `try_load_user_lookup` is total: when `load_user_lookup` succeeds it
returns the loaded lookup with no diagnostics, on any error it returns a
freshly constructed empty lookup after emitting one diagnostic line; and
`load_user_lookup` itself surfaces the store's error (missing or corrupt
lookup) when the earlier steps succeed. -/
theorem try_load_user_lookup_total (cacheDirRes : Except String (List String))
    (createDirRes : Except String Unit) (fullPathRes : Except String (List String))
    (loadAt : List String → Except String UserIdLookup) :
    (∀ uil, load_user_lookup cacheDirRes createDirRes fullPathRes loadAt = .ok uil →
      try_load_user_lookup cacheDirRes createDirRes fullPathRes loadAt = (uil, [])) ∧
    (∀ e, load_user_lookup cacheDirRes createDirRes fullPathRes loadAt = .error e →
      try_load_user_lookup cacheDirRes createDirRes fullPathRes loadAt
        = (UserIdLookup.new, ["try_load_user_lookup: error " ++ e])) ∧
    (∀ cd u p e, cacheDirRes = .ok cd → createDirRes = .ok u → fullPathRes = .ok p →
      loadAt p = .error e →
      load_user_lookup cacheDirRes createDirRes fullPathRes loadAt = .error e) := by
  refine ⟨?_, ?_, ?_⟩
  · intro uil h
    simp [try_load_user_lookup, h]
  · intro e h
    simp [try_load_user_lookup, h]
  · intro cd u p e h1 h2 h3 h4
    subst h1
    subst h2
    subst h3
    exact h4

theorem try_load_user_lookup_total_witness :
    try_load_user_lookup (.ok []) (.ok ()) (.ok ["user_id_lookup.json"])
      (fun _ => .error "NotFound")
      = (UserIdLookup.new, ["try_load_user_lookup: error " ++ "NotFound"]) :=
  (try_load_user_lookup_total (.ok []) (.ok ()) (.ok ["user_id_lookup.json"])
    (fun _ => .error "NotFound")).2.1 "NotFound" rfl

/-- C8 counterexample: the scan does not silently skip every problematic
entry: an entry whose filename is not valid UTF-8 (no resolvable filename)
aborts the process with an `unwrap` panic, and a subdirectory whose name
matches the pattern is handed to the Typed Object Store, whose failure ends
the whole call in an error instead of being skipped. -/
theorem scan_skip_counterexample :
    load_all_liked_tweets_from_cache "alice"
      (.ok [.ok (DirEntry.mk (some .nonUtf8) false (.error "unused"))])
      (.ok UserIdLookup.new)
      = .fatal optionUnwrapMsg ∧
    load_all_liked_tweets_from_cache "alice"
      (.ok [.ok (DirEntry.mk (some (.utf8 "likes-alice-1")) true
        (.error "Is a directory (os error 21)"))])
      (.ok UserIdLookup.new)
      = .err (.LoadError "Is a directory (os error 21)") := by
  exact ⟨by decide, by decide⟩

/-- C8 amended: non-matching entries and entries whose path has no final
filename component are silently skipped and contribute nothing; but an entry
whose directory read errored or whose filename is not valid UTF-8 aborts the
process with an `unwrap` panic, and a matching-named entry that the store
cannot load (a subdirectory, say) ends the call in an error. -/
theorem scan_skip_amended (username : String) (lkup : UserIdLookup)
    (entry : DirEntry) (acc : LikedTweets) (ioErr : String) :
    (entry.fileName = none → processEntry username lkup (.ok entry) acc = .ok acc) ∧
    (∀ f, entry.fileName = some (.utf8 f) →
      strStartsWith f (likesPat username) = false →
      processEntry username lkup (.ok entry) acc = .ok acc) ∧
    (entry.fileName = some .nonUtf8 →
      processEntry username lkup (.ok entry) acc = .fatal optionUnwrapMsg) ∧
    (∀ f e, entry.fileName = some (.utf8 f) →
      strStartsWith f (likesPat username) = true → entry.load = .error e →
      processEntry username lkup (.ok entry) acc = .err (.LoadError e)) ∧
    processEntry username lkup (.error ioErr) acc = .fatal resultUnwrapMsg := by
  refine ⟨?_, ?_, ?_, ?_, rfl⟩
  · intro h
    simp [processEntry, h]
  · intro f h hm
    simp [processEntry, h, hm]
  · intro h
    simp [processEntry, h]
  · intro f e h hm hl
    simp [processEntry, h, hm, hl]

theorem scan_skip_amended_witness :
    processEntry "alice" UserIdLookup.new
      (.ok (DirEntry.mk (some (.utf8 "likes-bob-1")) false (.error "x")))
      LikedTweets.new = .ok LikedTweets.new :=
  (scan_skip_amended "alice" UserIdLookup.new
    (DirEntry.mk (some (.utf8 "likes-bob-1")) false (.error "x"))
    LikedTweets.new "y").2.1 "likes-bob-1" rfl (by decide)

/-- C9: for a file path with a parent component, `write_cache` first runs the
recursive directory creation on the parent (afterwards the parent directory
exists) and then hands the state to the Typed Object Store's save, returning
exactly that save's outcome; an error arises only from directory creation
(unwritable filesystem) or from the save itself. -/
theorem write_cache_creates_parent (cacheIt : FsState → Except String FsState)
    (file_path par : List String) (st : FsState)
    (hpar : pathParent file_path = some par) :
    (st.writable = false →
      write_cache cacheIt file_path st = .err (.IoError "io error")) ∧
    (∀ st1, st.writable = true → create_dir_all par st = .ok st1 →
      par ∈ st1.dirs ∧
      write_cache cacheIt file_path st =
        (match cacheIt st1 with
         | .error e => .err (.StoreError e)
         | .ok st2 => .ok st2)) := by
  constructor
  · intro hw
    simp [write_cache, hpar, create_dir_all, hw]
  · intro st1 hw hc
    simp only [create_dir_all, hw, if_true, Except.ok.injEq] at hc
    subst hc
    constructor
    · by_cases hin : par ∈ st.dirs
      · simp [hin]
      · simp only [List.mem_append]
        right
        refine List.mem_filter.mpr ⟨?_, by simpa using hin⟩
        simp only [pathWithAncestors, List.mem_map, List.mem_range]
        exact ⟨par.length, by omega, List.take_length par⟩
    · simp [write_cache, hpar, create_dir_all, hw]

theorem write_cache_creates_parent_witness :
    ["a", "b"] ∈ [([] : List String), ["a"], ["a", "b"]] ∧
    write_cache (fun st => Except.ok st) ["a", "b", "file.json"]
      (FsState.mk [] true)
      = .ok (FsState.mk [[], ["a"], ["a", "b"]] true) :=
  (write_cache_creates_parent (fun st => Except.ok st) ["a", "b", "file.json"]
    ["a", "b"] (FsState.mk [] true) rfl).2
    (FsState.mk [[], ["a"], ["a", "b"]] true) rfl (by decide)

/-- C10: an author identifier that is present in the user lookup but whose
entry is unpopulated (`some none`) is treated like an absent one: reaching
such a datum aborts the process fatally rather than skipping or resolving
the tweet, and consequently a successful merge only ever returns tweets whose
author had a populated record. -/
theorem unpopulated_author_aborts_merge (username : String) (lkup : UserIdLookup)
    (es1 es2 : List (Except String DirEntry)) (entry : DirEntry) (filen : String)
    (resp : TwitLikeResponse) (pre post : List TweetDatum) (d : TweetDatum)
    (acc : LikedTweets)
    (hname : entry.fileName = some (.utf8 filen))
    (hmatch : strStartsWith filen (likesPat username) = true)
    (hload : entry.load = .ok resp)
    (hdata : resp.data = some (pre ++ d :: post))
    (hreach : processEntries username lkup es1 LikedTweets.new = .ok acc)
    (hpre : ∀ d2 ∈ pre, ∃ u, lkup.get d2.author_id = some (some u))
    (hres : lkup.get d.author_id = some none) :
    load_all_liked_tweets_from_cache username (.ok (es1 ++ .ok entry :: es2)) (.ok lkup)
      = .fatal optionUnwrapMsg ∧
    ∀ (entries2 : List (Except String DirEntry)) (agg : LikedTweets),
      load_all_liked_tweets_from_cache username (.ok entries2) (.ok lkup) = .ok agg →
      ∀ t ∈ agg.tweets, ∃ u, lkup.get t.author_id = some (some u) := by
  constructor
  · have hstep : processEntry username lkup (.ok entry) acc = .fatal optionUnwrapMsg := by
      simp only [processEntry, hname, hmatch, if_true, hload, mergePage, hdata]
      exact processData_fatal_unpopulated lkup pre d post _ hpre hres
    rw [load_all_eq_match, processEntries_append, hreach]
    simp only [processEntries, hstep]
  · intro entries2 agg hagg t ht
    obtain ⟨acc2, hp2, -, heq⟩ := load_all_ok_inv username entries2 lkup agg hagg
    subst heq
    obtain ⟨-, hmem⟩ := processEntries_ok_inv username lkup entries2 _ _ hp2
    have ht2 : t ∈ acc2.tweets := (sort_by_date_perm acc2).mem_iff.mp ht
    rcases hmem t ht2 with h1 | h2
    · simp [LikedTweets.new] at h1
    · exact ⟨h2.choose, h2.choose_spec.1⟩

theorem unpopulated_author_aborts_merge_witness :
    load_all_liked_tweets_from_cache "bob"
      (.ok [.ok (DirEntry.mk (some (.utf8 "likes-bob-1")) false
        (.ok (TwitLikeResponse.mk none (some [TweetDatum.mk "u1" 5 none]))))])
      (.ok (UserIdLookup.mk [("u1", none)]))
      = .fatal optionUnwrapMsg :=
  (unpopulated_author_aborts_merge "bob" (UserIdLookup.mk [("u1", none)]) [] []
    (DirEntry.mk (some (.utf8 "likes-bob-1")) false
      (.ok (TwitLikeResponse.mk none (some [TweetDatum.mk "u1" 5 none]))))
    "likes-bob-1" (TwitLikeResponse.mk none (some [TweetDatum.mk "u1" 5 none]))
    [] [] (TweetDatum.mk "u1" 5 none) LikedTweets.new
    rfl (by decide) rfl rfl rfl (by simp) rfl).1
